import Mathlib

set_option maxRecDepth 8000

/-!
Shallow embedding of the signature-extraction core of
`dev_tools/generate_repo_map.py`.

A source line is modelled as a `List Char` (`Line`).  Every extraction
pattern of the script has the shape `re.match(r'^(\s*)(BODY)...', line)`:
group 1 is the leading-whitespace prefix and group 2 the declaration
text.  Since every BODY starts with a non-whitespace character, the
greedy group `(\s*)` always captures exactly the maximal whitespace
prefix of the line; this compilation is `matchWithIndent`.  Each `*Body`
definition below is a deterministic compilation of the corresponding
BODY regex: greedy character classes are compiled to `takeWhile` /
`dropWhile` (their follow sets are disjoint from the classes, so no
backtracking can change the result), and the two places where the
regexes genuinely backtrack (`(?:async\s+)?\w+` in
JS_ARROW_SIMPLE_PATTERN and `(?:async\s+)?(?:get\s+|set\s+)?\w+` in
JS_METHOD_PATTERN, whose optional keywords are themselves words) are
compiled to explicit alternatives tried in the regex preference order.

An output entry is the pair (indent, text): the script appends the
single string built by an f-string with the two components; the
per-file result list of the spec's interface exposes the components.
The diagnostic entry appended by the `except` handler is built from a
fixed string with no indent interpolation, hence indent `[]`.

File reading (`open` / `readlines`, the only fallible operations of an
extractor, executed before its scanning loop) is modelled by the
`Except` argument of the `extract_*_signatures` functions: `Except.ok`
carries the list of lines, `Except.error` the rendered exception text.
-/

abbrev Line := List Char

/-- ASCII fragment of the regex class `\s` (Python `str` whitespace). -/
def isSpaceChar (c : Char) : Bool :=
  c == ' ' || c == '\t' || c == '\n' || c == '\r' || c == '\x0b' || c == '\x0c'

/-- ASCII fragment of the regex class `\w`. -/
def isWordChar (c : Char) : Bool :=
  c.isAlphanum || c == '_'

/-- Consume an exact literal prefix, returning the rest of the input. -/
def dropLit : Line → Line → Option Line
  | [], l => some l
  | _ :: _, [] => none
  | c :: s, x :: l => if c == x then dropLit s l else none

/-- Regex `\s+`: at least one whitespace character, consumed greedily. -/
def ws1 (l : Line) : Option (Line × Line) :=
  match l.takeWhile isSpaceChar with
  | [] => none
  | c :: cs => some (c :: cs, l.dropWhile isSpaceChar)

/-- Regex `\s*`. -/
def wsRun (l : Line) : Line × Line :=
  (l.takeWhile isSpaceChar, l.dropWhile isSpaceChar)

/-- Regex `\w+`. -/
def word1 (l : Line) : Option (Line × Line) :=
  match l.takeWhile isWordChar with
  | [] => none
  | c :: cs => some (c :: cs, l.dropWhile isWordChar)

/-- Regex `[^t]*`: everything before the first occurrence of `t`. -/
def upTo (t : Char) (l : Line) : Line × Line :=
  (l.takeWhile (fun c => c != t), l.dropWhile (fun c => c != t))

/-- Regex `(?:KW\s+)?` in positions where the token required after the
optional group cannot start with KW's first character, so committed
consumption agrees with the backtracking semantics. -/
def optKw (kw : Line) (l : Line) : Line × Line :=
  match dropLit kw l with
  | some r =>
    match ws1 r with
    | some p => (kw ++ p.1, p.2)
    | none => ([], l)
  | none => ([], l)

def kwAsync : Line := "async".toList
def kwDef : Line := "def".toList
def kwClass : Line := "class".toList
def kwExport : Line := "export".toList
def kwDefault : Line := "default".toList
def kwFunction : Line := "function".toList
def kwInterface : Line := "interface".toList
def kwType : Line := "type".toList
def kwConst : Line := "const".toList
def kwLet : Line := "let".toList
def kwVar : Line := "var".toList
def kwGet : Line := "get".toList
def kwSet : Line := "set".toList
def lparen : Line := ['(']
def rparen : Line := [')']
def lbrace : Line := ['\x7b']
def eqLit : Line := ['=']
def arrowLit : Line := ['=', '>']
def parensLit : Line := ['(', ')']

/-- Compilation of `re.match(r'^(\s*)(BODY)...', l)` for a BODY that
starts with a non-whitespace character: group 1 is the maximal
whitespace prefix, group 2 is produced by `body` from the remainder. -/
def matchWithIndent (body : Line → Option Line) (l : Line) : Option (Line × Line) :=
  match body (l.dropWhile isSpaceChar) with
  | some b => some (l.takeWhile isSpaceChar, b)
  | none => none

/-- Group 2 of PY_CLASS_PATTERN `^(\s*)(class\s+\w+[^:]*):` — the colon
is outside the capturing group. -/
def pyClassBody (r0 : Line) : Option Line := do
  let r1 ← dropLit kwClass r0
  let p1 ← ws1 r1
  let p2 ← word1 p1.2
  let t := upTo ':' p2.2
  let _ ← dropLit [':'] t.2
  some (kwClass ++ p1.1 ++ p2.1 ++ t.1)

/-- Group 2 of PY_FUNC_PATTERN
`^(\s*)((?:async\s+)?def\s+\w+\s*\([^)]*\)[^:]*):` — the final colon is
outside the capturing group. -/
def pyFuncBody (r0 : Line) : Option Line := do
  let oa := optKw kwAsync r0
  let r1 ← dropLit kwDef oa.2
  let p1 ← ws1 r1
  let p2 ← word1 p1.2
  let sp := wsRun p2.2
  let r2 ← dropLit lparen sp.2
  let inner := upTo ')' r2
  let r3 ← dropLit rparen inner.2
  let t := upTo ':' r3
  let _ ← dropLit [':'] t.2
  some (oa.1 ++ kwDef ++ p1.1 ++ p2.1 ++ sp.1 ++ lparen ++ inner.1 ++ rparen ++ t.1)

/-- Regex `(?:\.\w+)*`, fuel-indexed: every iteration consumes at least
two characters, so fuel equal to the input length is never exhausted. -/
def pyDottedTailF : Nat → Line → Line × Line
  | 0, l => ([], l)
  | fuel + 1, '.' :: rest =>
    match word1 rest with
    | some p =>
      let q := pyDottedTailF fuel p.2
      ('.' :: (p.1 ++ q.1), q.2)
    | none => ([], '.' :: rest)
  | _ + 1, l => ([], l)

def pyDottedTail (l : Line) : Line × Line := pyDottedTailF l.length l

/-- Regex `(?:\([^)]*\))?`: consumed only when the closing parenthesis
is present, otherwise the optional group matches empty. -/
def optParens (l : Line) : Line × Line :=
  match l with
  | '(' :: rest =>
    let inner := upTo ')' rest
    match inner.2 with
    | ')' :: r3 => ('(' :: (inner.1 ++ rparen), r3)
    | _ => ([], l)
  | _ => ([], l)

/-- Group 2 of PY_DECORATOR_PATTERN `^(\s*)(@\w+(?:\.\w+)*(?:\([^)]*\))?)`. -/
def pyDecoratorBody (r0 : Line) : Option Line :=
  match r0 with
  | '@' :: r1 =>
    match word1 r1 with
    | some p =>
      let dp := pyDottedTail p.2
      let pp := optParens dp.2
      some ('@' :: (p.1 ++ dp.1 ++ pp.1))
    | none => none
  | _ => none

def pyClassMatch (l : Line) : Option (Line × Line) := matchWithIndent pyClassBody l
def pyFuncMatch (l : Line) : Option (Line × Line) := matchWithIndent pyFuncBody l
def pyDecoratorMatch (l : Line) : Option (Line × Line) := matchWithIndent pyDecoratorBody l

/-- The `class_match` / `elif func_match` check of
`extract_python_signatures` (both the post-decorator-run check of lines
199-209 and the per-line checks of lines 212-224 emit the same entry
shape, so they share this first-match combination). -/
def pyHeaderMatch (l : Line) : Option (Line × Line) :=
  match pyClassMatch l with
  | some g => some g
  | none => pyFuncMatch l

/-- The inner collection loop of lines 191-197: greedily consume
further decorator lines whose group 1 equals the run's indent,
returning the collected group-2 texts and the remaining lines. -/
def pyCollectDecorators (ind : Line) : List Line → List Line × List Line
  | [] => ([], [])
  | l :: rest =>
    match pyDecoratorMatch l with
    | some g =>
      if g.1 = ind then
        let p := pyCollectDecorators ind rest
        (g.2 :: p.1, p.2)
      else ([], l :: rest)
    | none => ([], l :: rest)

/-- Lines 199-209: after a decorator run, if any line remains and it is
a class or function header, emit every collected decorator at the run's
indent followed by the header entry; otherwise emit nothing. -/
def pyEmit (ind : Line) (decorators : List Line) (rem : List Line) : List (Line × Line) :=
  match rem with
  | [] => []
  | l :: _ =>
    match pyHeaderMatch l with
    | some g => decorators.map (fun d => (ind, d)) ++ [g]
    | none => []

/-- The `while i < len(lines)` loop of lines 180-226, with the cursor
represented by the remaining suffix of the line list.  Each iteration
consumes at least one line (the decorator branch advances past at least
the first decorator before its `continue`, and crucially does NOT
advance past a recognised header line, which is therefore reprocessed),
so fuel equal to the number of lines always suffices. -/
def pyProcessAux : Nat → List Line → List (Line × Line)
  | 0, _ => []
  | _ + 1, [] => []
  | fuel + 1, line :: rest =>
    match pyDecoratorMatch line with
    | some g =>
      pyEmit g.1 (g.2 :: (pyCollectDecorators g.1 rest).1) (pyCollectDecorators g.1 rest).2
        ++ pyProcessAux fuel (pyCollectDecorators g.1 rest).2
    | none =>
      match pyHeaderMatch line with
      | some g => g :: pyProcessAux fuel rest
      | none => pyProcessAux fuel rest

def pyProcess (lines : List Line) : List (Line × Line) := pyProcessAux lines.length lines

/-- Boolean form of "this line is a decorator line whose indent is `ind`". -/
def isDecAt (ind : Line) (l : Line) : Bool :=
  match pyDecoratorMatch l with
  | some g => decide (g.1 = ind)
  | none => false

/-- Python `str.strip()` (ASCII whitespace fragment). -/
def stripChars (l : Line) : Line :=
  ((l.dropWhile isSpaceChar).reverse.dropWhile isSpaceChar).reverse

/-- Python `str.rstrip('\x7b')`. -/
def rstripBraces (l : Line) : Line :=
  (l.reverse.dropWhile (fun c => c == '\x7b')).reverse

/-- `stripped.split('(')[0].split()` first element (or empty): the text
before the first parenthesis, then its first whitespace-delimited token. -/
def firstWordOf (stripped : Line) : Line :=
  ((stripped.takeWhile (fun c => c != '(')).dropWhile isSpaceChar).takeWhile
    (fun c => !isSpaceChar c)

def CONTROL_FLOW_KEYWORDS : List Line :=
  ["if", "else", "for", "while", "switch", "case", "catch", "try", "finally",
   "return", "throw", "break", "continue", "do", "with"].map String.toList

/-- Group 2 of JS_INTERFACE_PATTERN `^(\s*)((?:export\s+)?interface\s+\w+[^{]*)`. -/
def jsInterfaceBody (r0 : Line) : Option Line := do
  let oe := optKw kwExport r0
  let r1 ← dropLit kwInterface oe.2
  let p1 ← ws1 r1
  let p2 ← word1 p1.2
  let t := upTo '\x7b' p2.2
  some (oe.1 ++ kwInterface ++ p1.1 ++ p2.1 ++ t.1)

/-- Group 2 of JS_TYPE_PATTERN `^(\s*)((?:export\s+)?type\s+\w+\s*=)`. -/
def jsTypeBody (r0 : Line) : Option Line := do
  let oe := optKw kwExport r0
  let r1 ← dropLit kwType oe.2
  let p1 ← ws1 r1
  let p2 ← word1 p1.2
  let sp := wsRun p2.2
  let _ ← dropLit eqLit sp.2
  some (oe.1 ++ kwType ++ p1.1 ++ p2.1 ++ sp.1 ++ eqLit)

/-- Group 2 of JS_CLASS_PATTERN
`^(\s*)((?:export\s+)?(?:default\s+)?class\s+\w+[^{]*)`. -/
def jsClassBody (r0 : Line) : Option Line := do
  let oe := optKw kwExport r0
  let od := optKw kwDefault oe.2
  let r1 ← dropLit kwClass od.2
  let p1 ← ws1 r1
  let p2 ← word1 p1.2
  let t := upTo '\x7b' p2.2
  some (oe.1 ++ od.1 ++ kwClass ++ p1.1 ++ p2.1 ++ t.1)

/-- Group 2 of JS_FUNC_PATTERN
`^(\s*)((?:export\s+)?(?:default\s+)?(?:async\s+)?function\s+\w+\s*\([^)]*\)[^{]*)`. -/
def jsFuncBody (r0 : Line) : Option Line := do
  let oe := optKw kwExport r0
  let od := optKw kwDefault oe.2
  let oa := optKw kwAsync od.2
  let r1 ← dropLit kwFunction oa.2
  let p1 ← ws1 r1
  let p2 ← word1 p1.2
  let sp := wsRun p2.2
  let r2 ← dropLit lparen sp.2
  let inner := upTo ')' r2
  let r3 ← dropLit rparen inner.2
  let t := upTo '\x7b' r3
  some (oe.1 ++ od.1 ++ oa.1 ++ kwFunction ++ p1.1 ++ p2.1 ++ sp.1 ++ lparen
    ++ inner.1 ++ rparen ++ t.1)

/-- Regex `(?:const|let|var)`: the alternatives have distinct first
characters, so at most one literal can match. -/
def declKw (l : Line) : Option (Line × Line) :=
  match dropLit kwConst l with
  | some r => some (kwConst, r)
  | none =>
    match dropLit kwLet l with
    | some r => some (kwLet, r)
    | none =>
      match dropLit kwVar l with
      | some r => some (kwVar, r)
      | none => none

/-- Group 2 of JS_ARROW_PATTERN
`^(\s*)((?:export\s+)?(?:const|let|var)\s+\w+\s*=\s*(?:async\s+)?\([^)]*\)\s*=>)`. -/
def jsArrowBody (r0 : Line) : Option Line := do
  let oe := optKw kwExport r0
  let dk ← declKw oe.2
  let p1 ← ws1 dk.2
  let p2 ← word1 p1.2
  let sp1 := wsRun p2.2
  let r1 ← dropLit eqLit sp1.2
  let sp2 := wsRun r1
  let oa := optKw kwAsync sp2.2
  let r2 ← dropLit lparen oa.2
  let inner := upTo ')' r2
  let r3 ← dropLit rparen inner.2
  let sp3 := wsRun r3
  let _ ← dropLit arrowLit sp3.2
  some (oe.1 ++ dk.1 ++ p1.1 ++ p2.1 ++ sp1.1 ++ eqLit ++ sp2.1 ++ oa.1 ++ lparen
    ++ inner.1 ++ rparen ++ sp3.1 ++ arrowLit)

/-- Regex `\w+\s*=>`. -/
def aswTail (r : Line) : Option Line := do
  let p1 ← word1 r
  let sp := wsRun p1.2
  let _ ← dropLit arrowLit sp.2
  some (p1.1 ++ sp.1 ++ arrowLit)

/-- Regex `(?:async\s+)?\w+\s*=>` with genuine backtracking: the
word after the optional keyword may itself be `async`, so on failure of
the consuming branch the empty-optional branch is tried. -/
def asTail (r : Line) : Option Line :=
  match (do
    let r1 ← dropLit kwAsync r
    let p ← ws1 r1
    let t ← aswTail p.2
    some (kwAsync ++ p.1 ++ t) : Option Line) with
  | some out => some out
  | none => aswTail r

/-- Group 2 of JS_ARROW_SIMPLE_PATTERN
`^(\s*)((?:export\s+)?(?:const|let|var)\s+\w+\s*=\s*(?:async\s+)?\w+\s*=>)`. -/
def jsArrowSimpleBody (r0 : Line) : Option Line := do
  let oe := optKw kwExport r0
  let dk ← declKw oe.2
  let p1 ← ws1 dk.2
  let p2 ← word1 p1.2
  let sp1 := wsRun p2.2
  let r1 ← dropLit eqLit sp1.2
  let sp2 := wsRun r1
  let t ← asTail sp2.2
  some (oe.1 ++ dk.1 ++ p1.1 ++ p2.1 ++ sp1.1 ++ eqLit ++ sp2.1 ++ t)

/-- Regex `\w+\s*\([^)]*\)\s*\x7b`. -/
def methodTail (r : Line) : Option Line := do
  let p1 ← word1 r
  let sp1 := wsRun p1.2
  let r1 ← dropLit lparen sp1.2
  let inner := upTo ')' r1
  let r2 ← dropLit rparen inner.2
  let sp2 := wsRun r2
  let _ ← dropLit lbrace sp2.2
  some (p1.1 ++ sp1.1 ++ lparen ++ inner.1 ++ rparen ++ sp2.1 ++ lbrace)

/-- Regex `(?:get\s+|set\s+)?\w+\s*\([^)]*\)\s*\x7b` with genuine
backtracking (`get` / `set` are themselves words), alternatives in the
regex preference order. -/
def gsTail (r : Line) : Option Line :=
  match (do
    let r1 ← dropLit kwGet r
    let p ← ws1 r1
    let t ← methodTail p.2
    some (kwGet ++ p.1 ++ t) : Option Line) with
  | some out => some out
  | none =>
    match (do
      let r1 ← dropLit kwSet r
      let p ← ws1 r1
      let t ← methodTail p.2
      some (kwSet ++ p.1 ++ t) : Option Line) with
    | some out => some out
    | none => methodTail r

/-- Group 2 of JS_METHOD_PATTERN
`^(\s*)((?:async\s+)?(?:get\s+|set\s+)?\w+\s*\([^)]*\)\s*\x7b)` with
genuine backtracking on the optional `async`. -/
def jsMethodBody (r0 : Line) : Option Line :=
  match (do
    let r1 ← dropLit kwAsync r0
    let p ← ws1 r1
    let t ← gsTail p.2
    some (kwAsync ++ p.1 ++ t) : Option Line) with
  | some out => some out
  | none => gsTail r0

def jsInterfaceMatch (l : Line) : Option (Line × Line) := matchWithIndent jsInterfaceBody l
def jsTypeMatch (l : Line) : Option (Line × Line) := matchWithIndent jsTypeBody l
def jsClassMatch (l : Line) : Option (Line × Line) := matchWithIndent jsClassBody l
def jsFuncMatch (l : Line) : Option (Line × Line) := matchWithIndent jsFuncBody l
def jsArrowMatch (l : Line) : Option (Line × Line) := matchWithIndent jsArrowBody l
def jsArrowSimpleMatch (l : Line) : Option (Line × Line) := matchWithIndent jsArrowSimpleBody l
def jsMethodMatch (l : Line) : Option (Line × Line) := matchWithIndent jsMethodBody l

/-- The pattern cascade of `extract_js_signatures` (lines 260-302), in
source order; every emitted text is `group(2).strip()`, except the
method branch which additionally requires a non-empty indent, strips
trailing opening braces and appends `()`.
JS_COMPONENT_PATTERN is defined in the script but never used by the
extractor, so it does not appear here. -/
def jsClassify (line : Line) : Option (Line × Line) :=
  match jsInterfaceMatch line with
  | some g => some (g.1, stripChars g.2)
  | none =>
  match jsTypeMatch line with
  | some g => some (g.1, stripChars g.2)
  | none =>
  match jsClassMatch line with
  | some g => some (g.1, stripChars g.2)
  | none =>
  match jsFuncMatch line with
  | some g => some (g.1, stripChars g.2)
  | none =>
  match jsArrowMatch line with
  | some g => some (g.1, stripChars g.2)
  | none =>
  match jsArrowSimpleMatch line with
  | some g => some (g.1, stripChars g.2)
  | none =>
  match jsMethodMatch line with
  | some g =>
    if 0 < g.1.length then some (g.1, stripChars (rstripBraces g.2) ++ parensLit)
    else none
  | none => none

/-- One iteration of the `for line in lines` loop of
`extract_js_signatures`: the control-flow guard of lines 250-258 (run
only on non-blank lines), then the pattern cascade. -/
def jsLine (line : Line) : Option (Line × Line) :=
  if stripChars line = [] then jsClassify line
  else if (firstWordOf (stripChars line)).map Char.toLower ∈ CONTROL_FLOW_KEYWORDS then none
  else jsClassify line

def jsProcess : List Line → List (Line × Line)
  | [] => []
  | l :: rest =>
    match jsLine l with
    | some e => e :: jsProcess rest
    | none => jsProcess rest

/-- Group 2 of SH_FUNC_PATTERN `^(\s*)(\w+\s*\(\)\s*\x7b)`. -/
def shFuncBody (r0 : Line) : Option Line := do
  let p1 ← word1 r0
  let sp1 := wsRun p1.2
  let r1 ← dropLit parensLit sp1.2
  let sp2 := wsRun r1
  let _ ← dropLit lbrace sp2.2
  some (p1.1 ++ sp1.1 ++ parensLit ++ sp2.1 ++ lbrace)

/-- Group 2 of SH_FUNC_KEYWORD_PATTERN `^(\s*)(function\s+\w+)`. -/
def shKeywordBody (r0 : Line) : Option Line := do
  let r1 ← dropLit kwFunction r0
  let p1 ← ws1 r1
  let p2 ← word1 p1.2
  some (kwFunction ++ p1.1 ++ p2.1)

def shFuncMatch (l : Line) : Option (Line × Line) := matchWithIndent shFuncBody l
def shKeywordMatch (l : Line) : Option (Line × Line) := matchWithIndent shKeywordBody l

/-- One iteration of the `for line in lines` loop of
`extract_shell_signatures` (lines 324-334): first pattern wins, entry
appended verbatim. -/
def shLine (l : Line) : Option (Line × Line) :=
  match shFuncMatch l with
  | some g => some g
  | none => shKeywordMatch l

def shProcess : List Line → List (Line × Line)
  | [] => []
  | l :: rest =>
    match shLine l with
    | some e => e :: shProcess rest
    | none => shProcess rest

/-- Line 228: `f"  # Error reading file: {e}"` — no indent interpolation. -/
def pyDiagnostic (e : Line) : Line := "  # Error reading file: ".toList ++ e

/-- Line 304: `f"  // Error reading file: {e}"`. -/
def jsDiagnostic (e : Line) : Line := "  // Error reading file: ".toList ++ e

/-- Line 337: `f"  # Error reading file: {e}"`. -/
def shDiagnostic (e : Line) : Line := "  # Error reading file: ".toList ++ e

def extract_python_signatures : Except Line (List Line) → List (Line × Line)
  | Except.error e => [([], pyDiagnostic e)]
  | Except.ok lines => pyProcess lines

def extract_js_signatures : Except Line (List Line) → List (Line × Line)
  | Except.error e => [([], jsDiagnostic e)]
  | Except.ok lines => jsProcess lines

def extract_shell_signatures : Except Line (List Line) → List (Line × Line)
  | Except.error e => [([], shDiagnostic e)]
  | Except.ok lines => shProcess lines

/-! ### Helper lemmas -/

theorem matchWithIndent_fst (body : Line → Option Line) (l : Line) (g : Line × Line)
    (h : matchWithIndent body l = some g) : g.1 = l.takeWhile isSpaceChar := by
  unfold matchWithIndent at h
  cases hb : body (l.dropWhile isSpaceChar) with
  | none => rw [hb] at h; cases h
  | some b =>
    rw [hb] at h
    cases h
    rfl

theorem pyHeaderMatch_fst (l : Line) (g : Line × Line)
    (h : pyHeaderMatch l = some g) : g.1 = l.takeWhile isSpaceChar := by
  unfold pyHeaderMatch at h
  cases hc : pyClassMatch l with
  | some gc =>
    simp only [hc] at h
    cases h
    exact matchWithIndent_fst pyClassBody l _ hc
  | none =>
    simp only [hc] at h
    exact matchWithIndent_fst pyFuncBody l g h

theorem pyCollect_len (ind : Line) (ls : List Line) :
    ((pyCollectDecorators ind ls).2).length ≤ ls.length := by
  induction ls with
  | nil => simp [pyCollectDecorators]
  | cons l rest ih =>
    cases hd : pyDecoratorMatch l with
    | some g =>
      by_cases hi : g.1 = ind
      · simp only [pyCollectDecorators, hd, if_pos hi, List.length_cons]
        exact Nat.le_succ_of_le ih
      · simp [pyCollectDecorators, hd, hi]
    | none => simp [pyCollectDecorators, hd]

theorem pyCollect_mem (ind : Line) (ls : List Line) (x : Line)
    (h : x ∈ (pyCollectDecorators ind ls).2) : x ∈ ls := by
  induction ls with
  | nil => simp [pyCollectDecorators] at h
  | cons l rest ih =>
    cases hd : pyDecoratorMatch l with
    | some g =>
      by_cases hi : g.1 = ind
      · simp only [pyCollectDecorators, hd, if_pos hi] at h
        exact List.mem_cons_of_mem _ (ih h)
      · simp only [pyCollectDecorators, hd, if_neg hi] at h
        exact h
    | none =>
      simp only [pyCollectDecorators, hd] at h
      exact h

theorem pyCollect_all (ind : Line) (ls : List Line)
    (h : ∀ l ∈ ls, isDecAt ind l = true) : (pyCollectDecorators ind ls).2 = [] := by
  induction ls with
  | nil => simp [pyCollectDecorators]
  | cons l rest ih =>
    have hl := h l (List.mem_cons_self l rest)
    cases hd : pyDecoratorMatch l with
    | none => simp [isDecAt, hd] at hl
    | some g =>
      have hi : g.1 = ind := by
        simp only [isDecAt, hd, decide_eq_true_eq] at hl
        exact hl
      simp only [pyCollectDecorators, hd, if_pos hi]
      exact ih (fun x hx => h x (List.mem_cons_of_mem _ hx))

theorem pyProcessAux_congr : ∀ (n m : Nat) (lines : List Line),
    lines.length ≤ n → lines.length ≤ m → pyProcessAux n lines = pyProcessAux m lines := by
  intro n
  induction n with
  | zero =>
    intro m lines h1 _
    have : lines = [] := List.eq_nil_of_length_eq_zero (Nat.le_zero.mp h1)
    subst this
    cases m <;> simp [pyProcessAux]
  | succ n ih =>
    intro m lines h1 h2
    cases lines with
    | nil => cases m <;> simp [pyProcessAux]
    | cons line rest =>
      cases m with
      | zero => simp at h2
      | succ m' =>
        have hr1 : rest.length ≤ n := by simpa using h1
        have hr2 : rest.length ≤ m' := by simpa using h2
        cases hd : pyDecoratorMatch line with
        | some g =>
          have hc := pyCollect_len g.1 rest
          simp only [pyProcessAux, hd]
          congr 1
          exact ih m' _ (le_trans hc hr1) (le_trans hc hr2)
        | none =>
          cases hh : pyHeaderMatch line with
          | some g2 =>
            simp only [pyProcessAux, hd, hh]
            rw [ih m' rest hr1 hr2]
          | none =>
            simp only [pyProcessAux, hd, hh]
            exact ih m' rest hr1 hr2

theorem pyProcess_dec (line : Line) (rest : List Line) (g : Line × Line)
    (h : pyDecoratorMatch line = some g) :
    pyProcess (line :: rest) =
      pyEmit g.1 (g.2 :: (pyCollectDecorators g.1 rest).1) (pyCollectDecorators g.1 rest).2
        ++ pyProcess (pyCollectDecorators g.1 rest).2 := by
  show pyProcessAux (line :: rest).length (line :: rest) = _
  simp only [List.length_cons, pyProcessAux, h]
  congr 1
  exact pyProcessAux_congr rest.length _ _ (pyCollect_len g.1 rest) (le_refl _)

theorem pyAux_indent : ∀ (n : Nat) (lines : List Line) (e : Line × Line),
    e ∈ pyProcessAux n lines → ∃ src, src ∈ lines ∧ e.1 = src.takeWhile isSpaceChar := by
  intro n
  induction n with
  | zero => intro lines e h; simp [pyProcessAux] at h
  | succ n ih =>
    intro lines e h
    cases lines with
    | nil => simp [pyProcessAux] at h
    | cons line rest =>
      simp only [pyProcessAux] at h
      cases hd : pyDecoratorMatch line with
      | some g =>
        simp only [hd] at h
        rcases List.mem_append.mp h with hemit | hrec
        · unfold pyEmit at hemit
          cases hrem : (pyCollectDecorators g.1 rest).2 with
          | nil => rw [hrem] at hemit; simp at hemit
          | cons l t =>
            rw [hrem] at hemit
            cases hh : pyHeaderMatch l with
            | none => simp [hh] at hemit
            | some g2 =>
              simp only [hh] at hemit
              rcases List.mem_append.mp hemit with hmap | hsing
              · rcases List.mem_map.mp hmap with ⟨d, _, hde⟩
                refine ⟨line, List.mem_cons_self _ _, ?_⟩
                rw [← hde]
                exact matchWithIndent_fst pyDecoratorBody line g hd
              · have hl : l ∈ rest := by
                  apply pyCollect_mem g.1 rest l
                  rw [hrem]
                  exact List.mem_cons_self l t
                have he : e = g2 := List.mem_singleton.mp hsing
                subst he
                exact ⟨l, List.mem_cons_of_mem _ hl, pyHeaderMatch_fst l e hh⟩
        · rcases ih _ _ hrec with ⟨src, hs, he⟩
          exact ⟨src, List.mem_cons_of_mem _ (pyCollect_mem g.1 rest src hs), he⟩
      | none =>
        simp only [hd] at h
        cases hh : pyHeaderMatch line with
        | some g2 =>
          simp only [hh] at h
          rcases List.mem_cons.mp h with he | hrec
          · subst he
            exact ⟨line, List.mem_cons_self _ _, pyHeaderMatch_fst line e hh⟩
          · rcases ih _ _ hrec with ⟨src, hs, he⟩
            exact ⟨src, List.mem_cons_of_mem _ hs, he⟩
        | none =>
          simp only [hh] at h
          rcases ih _ _ h with ⟨src, hs, he⟩
          exact ⟨src, List.mem_cons_of_mem _ hs, he⟩

theorem jsClassify_fst (line : Line) (e : Line × Line)
    (h : jsClassify line = some e) : e.1 = line.takeWhile isSpaceChar := by
  unfold jsClassify at h
  cases h1 : jsInterfaceMatch line with
  | some g =>
    simp only [h1] at h
    cases h
    exact matchWithIndent_fst jsInterfaceBody line g h1
  | none =>
  simp only [h1] at h
  cases h2 : jsTypeMatch line with
  | some g =>
    simp only [h2] at h
    cases h
    exact matchWithIndent_fst jsTypeBody line g h2
  | none =>
  simp only [h2] at h
  cases h3 : jsClassMatch line with
  | some g =>
    simp only [h3] at h
    cases h
    exact matchWithIndent_fst jsClassBody line g h3
  | none =>
  simp only [h3] at h
  cases h4 : jsFuncMatch line with
  | some g =>
    simp only [h4] at h
    cases h
    exact matchWithIndent_fst jsFuncBody line g h4
  | none =>
  simp only [h4] at h
  cases h5 : jsArrowMatch line with
  | some g =>
    simp only [h5] at h
    cases h
    exact matchWithIndent_fst jsArrowBody line g h5
  | none =>
  simp only [h5] at h
  cases h6 : jsArrowSimpleMatch line with
  | some g =>
    simp only [h6] at h
    cases h
    exact matchWithIndent_fst jsArrowSimpleBody line g h6
  | none =>
  simp only [h6] at h
  cases h7 : jsMethodMatch line with
  | some g =>
    simp only [h7] at h
    by_cases hlen : 0 < g.1.length
    · rw [if_pos hlen] at h
      cases h
      exact matchWithIndent_fst jsMethodBody line g h7
    · rw [if_neg hlen] at h
      cases h
  | none =>
  simp only [h7] at h
  cases h

theorem jsLine_fst (line : Line) (e : Line × Line)
    (h : jsLine line = some e) : e.1 = line.takeWhile isSpaceChar := by
  unfold jsLine at h
  by_cases hs : stripChars line = []
  · rw [if_pos hs] at h
    exact jsClassify_fst line e h
  · rw [if_neg hs] at h
    by_cases hk : (firstWordOf (stripChars line)).map Char.toLower ∈ CONTROL_FLOW_KEYWORDS
    · rw [if_pos hk] at h
      cases h
    · rw [if_neg hk] at h
      exact jsClassify_fst line e h

theorem jsProcess_indent : ∀ (lines : List Line) (e : Line × Line),
    e ∈ jsProcess lines → ∃ src, src ∈ lines ∧ e.1 = src.takeWhile isSpaceChar := by
  intro lines
  induction lines with
  | nil => intro e h; simp [jsProcess] at h
  | cons l rest ih =>
    intro e h
    simp only [jsProcess] at h
    cases hl : jsLine l with
    | some e0 =>
      simp only [hl] at h
      rcases List.mem_cons.mp h with he | hrec
      · subst he
        exact ⟨l, List.mem_cons_self _ _, jsLine_fst l e hl⟩
      · rcases ih e hrec with ⟨src, hs, he⟩
        exact ⟨src, List.mem_cons_of_mem _ hs, he⟩
    | none =>
      simp only [hl] at h
      rcases ih e h with ⟨src, hs, he⟩
      exact ⟨src, List.mem_cons_of_mem _ hs, he⟩

theorem shLine_fst (line : Line) (e : Line × Line)
    (h : shLine line = some e) : e.1 = line.takeWhile isSpaceChar := by
  unfold shLine at h
  cases h1 : shFuncMatch line with
  | some g =>
    simp only [h1] at h
    cases h
    exact matchWithIndent_fst shFuncBody line e h1
  | none =>
    simp only [h1] at h
    exact matchWithIndent_fst shKeywordBody line e h

theorem shProcess_indent : ∀ (lines : List Line) (e : Line × Line),
    e ∈ shProcess lines → ∃ src, src ∈ lines ∧ e.1 = src.takeWhile isSpaceChar := by
  intro lines
  induction lines with
  | nil => intro e h; simp [shProcess] at h
  | cons l rest ih =>
    intro e h
    simp only [shProcess] at h
    cases hl : shLine l with
    | some e0 =>
      simp only [hl] at h
      rcases List.mem_cons.mp h with he | hrec
      · subst he
        exact ⟨l, List.mem_cons_self _ _, shLine_fst l e hl⟩
      · rcases ih e hrec with ⟨src, hs, he⟩
        exact ⟨src, List.mem_cons_of_mem _ hs, he⟩
    | none =>
      simp only [hl] at h
      rcases ih e h with ⟨src, hs, he⟩
      exact ⟨src, List.mem_cons_of_mem _ hs, he⟩

theorem jsClassify_method (line : Line) (g : Line × Line)
    (h1 : jsInterfaceMatch line = none) (h2 : jsTypeMatch line = none)
    (h3 : jsClassMatch line = none) (h4 : jsFuncMatch line = none)
    (h5 : jsArrowMatch line = none) (h6 : jsArrowSimpleMatch line = none)
    (h7 : jsMethodMatch line = some g) :
    jsClassify line =
      if 0 < g.1.length then some (g.1, stripChars (rstripBraces g.2) ++ parensLit)
      else none := by
  unfold jsClassify
  simp only [h1, h2, h3, h4, h5, h6, h7]

theorem jsLine_of_not_kw (line : Line)
    (h : (firstWordOf (stripChars line)).map Char.toLower ∉ CONTROL_FLOW_KEYWORDS) :
    jsLine line = jsClassify line := by
  unfold jsLine
  by_cases hs : stripChars line = []
  · rw [if_pos hs]
  · rw [if_neg hs, if_neg h]

/-! ### Claim theorems -/

/-- Claim C1 (code bug): on the failing input `@staticmethod` followed by
`def helper():`, the extractor emits THREE entries — the decorator, the
header, and the header AGAIN — because after emitting a decorator run the
loop `continue`s without advancing the cursor past the declaration line
(no `i += 1` between lines 209 and 210), so the header line is reprocessed
by the main scan and re-emitted.  The run of N = 1 annotation lines
therefore yields N + 2 = 3 entries, not the N + 1 = 2 the spec states. -/
theorem py_decorator_run_header_duplicated :
    extract_python_signatures
        (Except.ok ["@staticmethod".toList, "def helper():".toList]) =
      [(([] : Line), "@staticmethod".toList), ([], "def helper()".toList),
       ([], "def helper()".toList)] ∧
    (extract_python_signatures
        (Except.ok ["@staticmethod".toList, "def helper():".toList])).length ≠ 2 :=
  ⟨by decide, by decide⟩

/-- Claim C2, counterexample: the top-level line
`def compute(x: int) -> int:` does NOT yield an entry whose text ends with
the colon — in PY_FUNC_PATTERN the final `:` lies outside capturing group
2, so the emitted text stops before it. -/
theorem py_top_level_def_colon_counterexample :
    extract_python_signatures (Except.ok ["def compute(x: int) -> int:".toList]) ≠
      [(([] : Line), "def compute(x: int) -> int:".toList)] := by
  decide

/-- Claim C2 (amended): the top-level line `def compute(x: int) -> int:`
yields exactly one entry, with empty indent and text
`def compute(x: int) -> int` — the trailing colon (the block-opening
delimiter) excluded. -/
theorem py_top_level_def_entry :
    extract_python_signatures (Except.ok ["def compute(x: int) -> int:".toList]) =
      [(([] : Line), "def compute(x: int) -> int".toList)] := by
  decide

/-- Claim C3: for a file whose contents cannot be read or decoded, each of
the three extractors returns exactly one entry, whose text names the
failure, and returns normally (the functions are total). -/
theorem extract_error_single_diagnostic (e : Line) :
    (extract_python_signatures (Except.error e)).length = 1 ∧
    extract_python_signatures (Except.error e) = [([], pyDiagnostic e)] ∧
    (extract_js_signatures (Except.error e)).length = 1 ∧
    extract_js_signatures (Except.error e) = [([], jsDiagnostic e)] ∧
    (extract_shell_signatures (Except.error e)).length = 1 ∧
    extract_shell_signatures (Except.error e) = [([], shDiagnostic e)] :=
  ⟨rfl, rfl, rfl, rfl, rfl, rfl⟩

/-- Claim C4: every diagnostic entry produced for a read/decode failure,
in any of the three extractor categories, has indent equal to the empty
string (the diagnostic f-string carries no indent interpolation). -/
theorem diagnostic_indent_empty (e : Line) (p : Line × Line)
    (h : p ∈ extract_python_signatures (Except.error e) ∨
         p ∈ extract_js_signatures (Except.error e) ∨
         p ∈ extract_shell_signatures (Except.error e)) : p.1 = [] := by
  rcases h with h | h | h
  · simp only [extract_python_signatures, List.mem_singleton] at h
    subst h
    rfl
  · simp only [extract_js_signatures, List.mem_singleton] at h
    subst h
    rfl
  · simp only [extract_shell_signatures, List.mem_singleton] at h
    subst h
    rfl

theorem diagnostic_indent_empty_witness :
    ((([] : Line), pyDiagnostic "boom".toList) : Line × Line).1 = [] :=
  diagnostic_indent_empty ("boom".toList) (([], pyDiagnostic "boom".toList))
    (Or.inl (by decide))

/-- Claim C5: any non-blank line whose first token (text up to the first
parenthesis or first space), lowercased, is in CONTROL_FLOW_KEYWORDS
contributes no signature entry — the classifier cascade is never reached
for it, even if one of the declaration patterns would match the line. -/
theorem js_control_flow_guard_skips (line : Line) (rest : List Line)
    (h1 : stripChars line ≠ [])
    (h2 : (firstWordOf (stripChars line)).map Char.toLower ∈ CONTROL_FLOW_KEYWORDS) :
    jsProcess (line :: rest) = jsProcess rest := by
  have hl : jsLine line = none := by
    unfold jsLine
    rw [if_neg h1, if_pos h2]
  simp [jsProcess, hl]

theorem js_control_flow_guard_skips_witness :
    jsProcess ["  if (x) \x7b".toList] = jsProcess [] :=
  js_control_flow_guard_skips ("  if (x) \x7b".toList) [] (by decide) (by decide)

/-- Claim C6: every entry emitted from a matched source line, in any of
the three extractor categories, has an indent that is byte-for-byte the
leading-whitespace prefix of a source line of the file (group 1 of every
pattern is the greedy `(\s*)` prefix, copied verbatim, never recomputed). -/
theorem emitted_indent_is_leading_whitespace (lines : List Line) (e : Line × Line)
    (h : e ∈ pyProcess lines ∨ e ∈ jsProcess lines ∨ e ∈ shProcess lines) :
    ∃ src, src ∈ lines ∧ e.1 = src.takeWhile isSpaceChar := by
  rcases h with h | h | h
  · exact pyAux_indent lines.length lines e h
  · exact jsProcess_indent lines e h
  · exact shProcess_indent lines e h

theorem emitted_indent_is_leading_whitespace_witness :
    ∃ src, src ∈ ["  class A:".toList] ∧
      (("  ".toList, "class A".toList) : Line × Line).1 = src.takeWhile isSpaceChar :=
  emitted_indent_is_leading_whitespace ["  class A:".toList]
    (("  ".toList, "class A".toList)) (Or.inl (by decide))

/-- Claim C7: a line on which only JS_METHOD_PATTERN matches is accepted
only when its captured indent is non-empty — a zero-indent bare method
line yields no entry — and, when accepted, the emitted text is the
captured text with trailing opening braces and surrounding whitespace
stripped and an empty parameter-list marker appended. -/
theorem js_method_indent_gate (line : Line) (rest : List Line) (g : Line × Line)
    (h1 : jsInterfaceMatch line = none) (h2 : jsTypeMatch line = none)
    (h3 : jsClassMatch line = none) (h4 : jsFuncMatch line = none)
    (h5 : jsArrowMatch line = none) (h6 : jsArrowSimpleMatch line = none)
    (h7 : jsMethodMatch line = some g)
    (h8 : (firstWordOf (stripChars line)).map Char.toLower ∉ CONTROL_FLOW_KEYWORDS) :
    (g.1 = [] → jsProcess (line :: rest) = jsProcess rest) ∧
    (g.1 ≠ [] →
      jsProcess (line :: rest) =
        (g.1, stripChars (rstripBraces g.2) ++ parensLit) :: jsProcess rest) := by
  have hcl := jsClassify_method line g h1 h2 h3 h4 h5 h6 h7
  have hln := jsLine_of_not_kw line h8
  constructor
  · intro hnil
    have hnone : jsLine line = none := by
      rw [hln, hcl, hnil]
      simp
    simp [jsProcess, hnone]
  · intro hne
    have hpos : 0 < g.1.length := List.length_pos.mpr hne
    have hsome : jsLine line = some (g.1, stripChars (rstripBraces g.2) ++ parensLit) := by
      rw [hln, hcl, if_pos hpos]
    simp [jsProcess, hsome]

theorem js_method_indent_gate_witness :
    jsProcess ["foo() \x7b".toList] = [] ∧
    jsProcess ["  foo(a, b) \x7b".toList] =
      [(("  ".toList : Line), "foo(a, b)()".toList)] := by
  constructor
  · exact ((js_method_indent_gate ("foo() \x7b".toList) [] (([], "foo() \x7b".toList))
      (by decide) (by decide) (by decide) (by decide) (by decide) (by decide) (by decide)
      (by decide)).1 (by decide)).trans (by decide)
  · exact ((js_method_indent_gate ("  foo(a, b) \x7b".toList) []
      (("  ".toList, "foo(a, b) \x7b".toList))
      (by decide) (by decide) (by decide) (by decide) (by decide) (by decide) (by decide)
      (by decide)).2 (by decide)).trans (by decide)

/-- Claim C8: the scanning loop always terminates — the decorator branch
continues at a strictly shorter suffix (it always consumes at least the
first decorator line), so fuel equal to the number of remaining lines is
always sufficient and the extraction of any finite line list is a fixed
result list. -/
theorem py_extraction_loop_terminates (n : Nat) (line : Line) (rest : List Line)
    (g : Line × Line) (h1 : pyDecoratorMatch line = some g)
    (h2 : (line :: rest).length ≤ n) :
    ((pyCollectDecorators g.1 rest).2).length < (line :: rest).length ∧
    pyProcessAux n (line :: rest) = pyProcess (line :: rest) := by
  refine ⟨?_, ?_⟩
  · have := pyCollect_len g.1 rest
    simp only [List.length_cons]
    omega
  · exact pyProcessAux_congr n (line :: rest).length (line :: rest) h2 (le_refl _)

theorem py_extraction_loop_terminates_witness :
    ((pyCollectDecorators ((([] : Line), "@a".toList) : Line × Line).1
        ([] : List Line)).2).length < (["@a".toList] : List Line).length ∧
    pyProcessAux 3 ["@a".toList] = pyProcess ["@a".toList] :=
  py_extraction_loop_terminates 3 ("@a".toList) [] (([], "@a".toList))
    (by decide) (by decide)

/-- Claim C9: an annotation run whose following class/function header sits
at a different indent is still attached: the decorator entries are emitted
at the run's indent and the header entry at its own captured indent, with
no requirement that the two indents agree.  (Scanning then continues at
the header line, per the behaviour established for C1.) -/
theorem py_run_attaches_at_different_indent (line : Line) (rest : List Line)
    (g : Line × Line) (decs : List Line) (hline : Line) (tail : List Line)
    (g2 : Line × Line)
    (h1 : pyDecoratorMatch line = some g)
    (h2 : pyCollectDecorators g.1 rest = (decs, hline :: tail))
    (h3 : pyHeaderMatch hline = some g2)
    (h4 : g2.1 ≠ g.1) :
    pyProcess (line :: rest) =
      (g.2 :: decs).map (fun d => (g.1, d)) ++ g2 :: pyProcess (hline :: tail) := by
  rw [pyProcess_dec line rest g h1, h2]
  simp only [pyEmit, h3, List.append_assoc, List.singleton_append]

theorem py_run_attaches_at_different_indent_witness :
    pyProcess ["@a".toList, "  def f():".toList] =
      [(([] : Line), "@a".toList), (("  ".toList : Line), "def f()".toList),
       (("  ".toList : Line), "def f()".toList)] :=
  (py_run_attaches_at_different_indent ("@a".toList) ["  def f():".toList]
    (([], "@a".toList)) [] ("  def f():".toList) [] (("  ".toList, "def f()".toList))
    (by decide) (by decide) (by decide) (by decide)).trans (by decide)

/-- Claim C10: an annotation run that extends to the end of the file (every
remaining line is a decorator at the run's indent) emits no entries and
extraction returns normally. -/
theorem py_run_to_eof_emits_nothing (line : Line) (rest : List Line) (g : Line × Line)
    (h1 : pyDecoratorMatch line = some g)
    (h2 : ∀ l ∈ rest, isDecAt g.1 l = true) :
    pyProcess (line :: rest) = [] := by
  have hrem : (pyCollectDecorators g.1 rest).2 = [] := pyCollect_all g.1 rest h2
  rw [pyProcess_dec line rest g h1, hrem]
  simp [pyEmit, pyProcess, pyProcessAux]

theorem py_run_to_eof_emits_nothing_witness :
    pyProcess ["@a".toList, "@b".toList] = [] :=
  py_run_to_eof_emits_nothing ("@a".toList) ["@b".toList] (([], "@a".toList))
    (by decide) (by decide)
